import Mathlib

/-!
# Verification of the fortune-flow scheduling / distributed-execution coordinator

Shallow embedding of the coordinator core:
  * `src/services/taskExecutor.js`  — admission control, result reconciliation,
    dispatch-and-wait, timeout handling;
  * `src/services/taskScheduler.js` — cron scheduling and next-run computation;
  * the WebSocket worker-channel service (`WebSocketService`).

Conventions of the embedding:
  * MongoDB ObjectIds are modelled as `Nat`.
  * Timestamps are modelled as `Nat` minutes in the fixed `Asia/Shanghai`
    timezone (a constant UTC+8 offset, no DST), since cron has minute
    granularity.  Millisecond constants that never mix with these
    timestamps (the `setTimeout` delay) keep their source value in ms.
  * Asynchronous database operations are modelled as pure state transitions
    on a `DB` value; a possible database failure inside `checkRunningTask`
    is modelled by an explicit `dbError` flag (the `catch` branch).
  * Promise resolution/rejection of a waiting caller is modelled as an
    explicit `CallerOutcome` output of the state transition.
-/

deriving instance DecidableEq for Except

namespace FortuneFlow

/-- A document of the `scheduled_tasks` collection (a ScheduledJob). -/
structure Task where
  id : Nat
  shopId : Nat
  taskType : String
  status : String
  cronExpression : String
  lastRunAt : Option Nat := none
  nextRunAt : Option Nat := none
  runCount : Nat := 0
  successCount : Nat := 0
  failureCount : Nat := 0
  enabled : Bool := true
  deriving Repr, DecidableEq

/-- One entry of an execution's append-only `logs` array. -/
structure LogEntry where
  timestamp : Nat
  level : String
  message : String
  deriving Repr, DecidableEq

/-- A document of the `task_executions` collection. -/
structure Execution where
  id : Nat
  taskId : Nat
  shopId : Nat
  status : String
  startedAt : Nat
  completedAt : Option Nat := none
  duration : Option Nat := none
  error : Option String := none
  logs : List LogEntry := []
  deriving Repr, DecidableEq

/-- The persistent store: `scheduled_tasks` and `task_executions`. -/
structure DB where
  tasks : List Task
  executions : List Execution
  deriving Repr, DecidableEq

/-- `tasksCollection.findOne({_id: id})`. -/
def findTask (db : DB) (id : Nat) : Option Task :=
  db.tasks.find? (fun t => t.id == id)

/-- `executionsCollection.findOne({_id: id})`. -/
def findExecution (db : DB) (id : Nat) : Option Execution :=
  db.executions.find? (fun e => e.id == id)

/-- An entry of the in-memory `taskResultWaiters` map (the PendingCorrelation):
the source value holds `resolve`, `reject`, the timeout handle and
`executionId`; the continuations are modelled at the event level, so only the
execution id is carried. -/
structure Waiter where
  executionId : Nat
  deriving Repr, DecidableEq

/-- `taskResultWaiters.get taskId`. -/
def lookupWaiter (ws : List (Nat × Waiter)) (k : Nat) : Option Waiter :=
  (ws.find? (fun p => p.1 == k)).map (fun p => p.2)

/-- `taskResultWaiters.delete taskId`. -/
def removeWaiter (ws : List (Nat × Waiter)) (k : Nat) : List (Nat × Waiter) :=
  ws.filter (fun p => p.1 != k)

/-- `taskResultWaiters.set taskId waiter` (JS `Map.set` replaces any prior
binding for the key). -/
def setWaiter (ws : List (Nat × Waiter)) (k : Nat) (w : Waiter) :
    List (Nat × Waiter) :=
  removeWaiter ws k ++ [(k, w)]

/-- `checkRunningTask(shopId, taskType, excludeTaskId)`: query
`scheduled_tasks` for a document with the same `shopId` and `taskType`,
`status: 'running'`, excluding `excludeTaskId` when given.  The `catch`
branch (store lookup throwing, modelled by `dbError`) returns `true`,
blocking execution. -/
def checkRunningTask (db : DB) (dbError : Bool) (shopId : Nat)
    (taskType : String) (excludeTaskId : Option Nat) : Bool :=
  if dbError then true
  else
    db.tasks.any fun t =>
      t.shopId == shopId && t.taskType == taskType && t.status == "running" &&
        (match excludeTaskId with
         | some e => t.id != e
         | none => true)

/-- The error message thrown on a mutual-exclusion conflict
(`ConcurrentExecutionError` in the spec's taxonomy). -/
def concurrentMsg : String :=
  "该店铺已有相同类型的任务正在执行中，请等待任务完成后再试"

/-- A `task:status-update` broadcast payload (`broadcastTaskStatusUpdate`).
Optional fields model which keys the source includes in each payload. -/
structure StatusUpdate where
  taskId : Nat
  status : String
  lastRunAt : Option Nat := none
  nextRunAt : Option Nat := none
  successCount : Option Nat := none
  failureCount : Option Nat := none
  executionId : Option Nat := none
  deriving Repr, DecidableEq

/-- The admission phase of `executeTask(task)` (everything before
`queue.add`): the mutual-exclusion check, then creation of the Execution
record with `status: 'running'`, the job update (`status: 'running'`,
`lastRunAt`, `runCount + 1`) and the `running` status broadcast.
Returns the new store, the list of broadcasts sent, and either the created
execution id or the thrown error message. -/
def executeTaskAdmit (db : DB) (dbError : Bool) (task : Task)
    (executionId now : Nat) : DB × List StatusUpdate × Except String Nat :=
  if checkRunningTask db dbError task.shopId task.taskType (some task.id) then
    (db, [], .error concurrentMsg)
  else
    let execution : Execution :=
      { id := executionId, taskId := task.id, shopId := task.shopId,
        status := "running", startedAt := now, logs := [] }
    let db1 : DB := { db with executions := db.executions ++ [execution] }
    let db2 : DB :=
      { db1 with
        tasks := db1.tasks.map fun t =>
          if t.id == task.id then
            { t with status := "running", lastRunAt := some now,
                     runCount := t.runCount + 1 }
          else t }
    (db2,
     [{ taskId := task.id, status := "running", lastRunAt := some now,
        executionId := some executionId }],
     .ok executionId)

/-! ## Cron model

`calculateNextRunTime` in `src/services/taskScheduler.js` delegates parsing
and iteration to the `cron-parser` dependency (`CronExpressionParser.parse`
with `tz: 'Asia/Shanghai'` followed by `interval.next()`), and
`scheduleTask` validates with `node-cron`'s `cron.validate`.  Both accept
standard 5-field cron; the embedding below implements that standard 5-field
grammar (`*`, numbers, ranges, steps, comma lists) and the minute-by-minute
next-fire iteration over the proleptic Gregorian calendar in the fixed
UTC+8 timezone. -/

/-- Gregorian leap-year test. -/
def isLeap (y : Nat) : Bool :=
  (y % 4 == 0 && y % 100 != 0) || y % 400 == 0

/-- Days in month `m` (1-12) of year `y`. -/
def daysInMonth (y m : Nat) : Nat :=
  if m == 2 then (if isLeap y then 29 else 28)
  else if m == 4 || m == 6 || m == 9 || m == 11 then 30
  else 31

/-- Days in year `y`. -/
def daysInYear (y : Nat) : Nat :=
  if isLeap y then 366 else 365

/-- Locate the year containing day offset `d` counted from Jan 1 of `y`;
returns the year and the remaining day offset inside it.  Fueled recursion
(one unit of fuel per year). -/
def findYear : Nat → Nat → Nat → Nat × Nat
  | 0, d, y => (y, d)
  | fuel + 1, d, y =>
      if d < daysInYear y then (y, d) else findYear fuel (d - daysInYear y) (y + 1)

/-- Locate the month containing day offset `d` counted from the first day of
month `m` of year `y`; returns the month and remaining day offset. -/
def findMonth : Nat → Nat → Nat → Nat → Nat × Nat
  | 0, d, _, m => (m, d)
  | fuel + 1, d, y, m =>
      if d < daysInMonth y m then (m, d) else findMonth fuel (d - daysInMonth y m) y (m + 1)

/-- Broken-down wall-clock fields of a timestamp. -/
structure TimeFields where
  minute : Nat
  hour : Nat
  dom : Nat
  month : Nat
  dow : Nat
  deriving Repr, DecidableEq

/-- Convert a timestamp (minutes since 1970-01-01 00:00 local Shanghai time)
into its wall-clock fields.  1970-01-01 was a Thursday (`dow = 4`). -/
def minutesToFields (t : Nat) : TimeFields :=
  let minute := t % 60
  let hours := t / 60
  let hour := hours % 24
  let days := hours / 24
  let dow := (days + 4) % 7
  let yd := findYear 10000 days 1970
  let md := findMonth 12 yd.2 yd.1 1
  { minute := minute, hour := hour, dom := md.2 + 1, month := md.1, dow := dow }

/-- The values of a stepped range `a..b` (every `step`-th value). -/
def rangeVals (a b step : Nat) : List Nat :=
  if step == 0 then []
  else (List.range' a (b + 1 - a)).filter (fun v => (v - a) % step == 0)

/-- Split a character list on a separator character (the string splitting
used by the cron grammar, in a form the kernel can evaluate). -/
def splitOnChar (sep : Char) : List Char → List (List Char)
  | [] => [[]]
  | c :: cs =>
      match splitOnChar sep cs with
      | [] => [[c]]
      | h :: t => if c == sep then [] :: h :: t else (c :: h) :: t

/-- The numeric value of a decimal digit character. -/
def digitVal (c : Char) : Option Nat :=
  if c.toNat ≥ 48 && c.toNat ≤ 57 then some (c.toNat - 48) else none

/-- Accumulate decimal digits into a number; any non-digit rejects. -/
def digitsToNatAux : List Char → Nat → Option Nat
  | [], acc => some acc
  | c :: cs, acc =>
      match digitVal c with
      | some d => digitsToNatAux cs (acc * 10 + d)
      | none => none

/-- Parse a non-empty all-digit token as a number (`toNat?`). -/
def digitsToNat (cs : List Char) : Option Nat :=
  match cs with
  | [] => none
  | _ => digitsToNatAux cs 0

/-- Parse one comma-separated item of a cron field over the value range
`[lo, hi]`: `*`, `*/s`, `n`, `n/s`, `a-b`, `a-b/s`. -/
def parseItem (lo hi : Nat) (cs : List Char) : Option (List Nat) :=
  let withStep : List Char → Nat → Option (List Nat) := fun base step =>
    if step == 0 then none
    else if base == ['*'] then some (rangeVals lo hi step)
    else
      match splitOnChar '-' base with
      | [a] =>
          match digitsToNat a with
          | some av =>
              if lo ≤ av && av ≤ hi then
                if step == 1 then some [av] else some (rangeVals av hi step)
              else none
          | none => none
      | [a, b] =>
          match digitsToNat a, digitsToNat b with
          | some av, some bv =>
              if lo ≤ av && av ≤ bv && bv ≤ hi then some (rangeVals av bv step)
              else none
          | _, _ => none
      | _ => none
  match splitOnChar '/' cs with
  | [base] => withStep base 1
  | [base, st] =>
      match digitsToNat st with
      | some n => withStep base n
      | none => none
  | _ => none

/-- Parse a whole cron field (a comma list of items) into its value list. -/
def parseField (lo hi : Nat) (cs : List Char) : Option (List Nat) :=
  (splitOnChar ',' cs).foldr
    (fun it acc =>
      match parseItem lo hi it, acc with
      | some vs, some rest => some (vs ++ rest)
      | _, _ => none)
    (some [])

/-- A parsed 5-field cron expression: the matching value sets plus whether
the day-of-month / day-of-week fields were the wildcard `*` (standard cron
applies OR semantics only when both day fields are restricted). -/
structure CronSpec where
  minutes : List Nat
  hours : List Nat
  doms : List Nat
  months : List Nat
  dows : List Nat
  domStar : Bool
  dowStar : Bool
  deriving Repr, DecidableEq

/-- Parse a standard 5-field cron expression
(minute hour day-of-month month day-of-week, `7 = 0 =` Sunday). -/
def parseCron (s : String) : Option CronSpec :=
  match (splitOnChar ' ' s.toList).filter (fun f => !f.isEmpty) with
  | [mi, h, dom, mo, dow] =>
      match parseField 0 59 mi, parseField 0 23 h, parseField 1 31 dom,
            parseField 1 12 mo, parseField 0 7 dow with
      | some ms, some hs, some ds, some mos, some dws =>
          some { minutes := ms, hours := hs, doms := ds, months := mos,
                 dows := dws.map (fun v => if v == 7 then 0 else v),
                 domStar := dom == ['*'], dowStar := dow == ['*'] }
      | _, _, _, _, _ => none
  | _ => none

/-- Whether timestamp `t` matches the cron specification. -/
def cronMatches (c : CronSpec) (t : Nat) : Bool :=
  let f := minutesToFields t
  let dayOk :=
    if c.domStar && c.dowStar then true
    else if c.domStar then c.dows.contains f.dow
    else if c.dowStar then c.doms.contains f.dom
    else c.doms.contains f.dom || c.dows.contains f.dow
  c.minutes.contains f.minute && c.hours.contains f.hour &&
    c.months.contains f.month && dayOk

/-- Search horizon of the next-fire iteration: five years of minutes
(models `cron-parser`'s bounded iteration). -/
def cronSearchFuel : Nat := 5 * 366 * 24 * 60

/-- Scan forward from `t` for the first matching minute, with fuel. -/
def nextFireAux (c : CronSpec) : Nat → Nat → Option Nat
  | 0, _ => none
  | fuel + 1, t => if cronMatches c t then some t else nextFireAux c fuel (t + 1)

/-- `interval.next()`: the first matching minute strictly after `fromTime`. -/
def nextFire (c : CronSpec) (fromTime : Nat) : Option Nat :=
  nextFireAux c cronSearchFuel (fromTime + 1)

/-- `calculateNextRunTime(cronExpression, fromDate)`: parse with the
configured timezone and `currentDate: fromDate || new Date()`, return
`interval.next()`; the `catch` branch (parse or iteration failure) returns
`new Date(Date.now() + 60*60*1000)` — the CURRENT time plus one hour
(one hour = 60 model minutes). -/
def calculateNextRunTime (cronExpression : String) (fromDate : Option Nat)
    (now : Nat) : Nat :=
  match parseCron cronExpression with
  | none => now + 60
  | some c =>
      match nextFire c (fromDate.getD now) with
      | none => now + 60
      | some t => t

/-- `cron.validate` of `node-cron` as used by `scheduleTask`, modelled by
acceptance of the standard 5-field grammar. -/
def cronValidate (expr : String) : Bool :=
  (parseCron expr).isSome

/-! ## Result reconciliation, timeout and dispatch (`taskExecutor.js`) -/

/-- The in-process executor state: the store plus the in-memory
`taskResultWaiters` map. -/
structure ExecutorState where
  db : DB
  waiters : List (Nat × Waiter)
  deriving Repr, DecidableEq

/-- The payload of an inbound `task:result` message
(`{taskId, result: {code, message?, data?}}`). -/
structure ResultMsg where
  code : Nat
  message : Option String := none
  deriving Repr, DecidableEq

/-- How the waiting caller's promise is settled. -/
inductive CallerOutcome where
  | resolved (r : ResultMsg)
  | rejected (msg : String)
  deriving Repr, DecidableEq

/-- The default failure message used when a failed result has no `message`. -/
def genericFailMsg : String := "任务执行失败"

/-- `resolve(result)` on `code === 200`, `reject(new Error(...))` otherwise. -/
def callerOutcome (r : ResultMsg) : CallerOutcome :=
  if r.code == 200 then .resolved r
  else .rejected (r.message.getD genericFailMsg)

/-- The `task:result` callback registered through `setTaskResultCallback`:
if a waiter exists for `taskId`, clear its timer and map entry, update the
execution record (status/`completedAt`/`duration`/`error`), update the task
document (status, `nextRunAt` recomputed from now, `successCount` or
`failureCount` incremented), broadcast a `task:status-update`, and settle the
caller; with no waiter, do nothing at all. -/
def taskResultCallback (s : ExecutorState) (now : Nat) (taskId : Nat)
    (result : ResultMsg) :
    ExecutorState × List StatusUpdate × Option CallerOutcome :=
  match lookupWaiter s.waiters taskId with
  | none => (s, [], none)
  | some w =>
      let waiters1 := removeWaiter s.waiters taskId
      let db1 : DB :=
        match findExecution s.db w.executionId with
        | none => s.db
        | some _ =>
            { s.db with
              executions := s.db.executions.map fun e =>
                if e.id == w.executionId then
                  { e with
                    status := if result.code == 200 then "completed" else "failed",
                    completedAt := some now,
                    duration := some (now - e.startedAt),
                    error := if result.code != 200 then
                               some (result.message.getD genericFailMsg)
                             else none }
                else e }
      match findTask db1 taskId with
      | none => ({ db := db1, waiters := waiters1 }, [], some (callerOutcome result))
      | some task =>
          let newStatus := if result.code == 200 then "completed" else "failed"
          let nextRun := calculateNextRunTime task.cronExpression (some now) now
          let db2 : DB :=
            { db1 with
              tasks := db1.tasks.map fun t =>
                if t.id == taskId then
                  { t with
                    status := newStatus,
                    nextRunAt := some nextRun,
                    successCount := if result.code == 200 then t.successCount + 1
                                    else t.successCount,
                    failureCount := if result.code != 200 then t.failureCount + 1
                                    else t.failureCount }
                else t }
          ({ db := db2, waiters := waiters1 },
           [{ taskId := taskId, status := newStatus, lastRunAt := task.lastRunAt,
              nextRunAt := some nextRun,
              successCount := some (if result.code == 200 then task.successCount + 1
                                    else task.successCount),
              failureCount := some (if result.code != 200 then task.failureCount + 1
                                    else task.failureCount) }],
           some (callerOutcome result))

/-- The timeout error message (`ExecutionTimeoutError` in the spec's
taxonomy). -/
def timeoutMsg : String := "任务执行超时（30分钟）"

/-- The `setTimeout` delay of the dispatch deadline: `30 * 60 * 1000` ms. -/
def taskTimeoutMs : Nat := 30 * 60 * 1000

/-- The timeout timer callback of `executeTaskInClient` together with
`updateTaskTimeout`: if the waiter is still registered, remove it, mark the
execution `failed` with the timeout error, update the task (status `failed`,
`failureCount + 1`, recomputed `nextRunAt`), broadcast, and reject the
caller; if the waiter is already gone, do nothing. -/
def timeoutFire (s : ExecutorState) (now : Nat) (taskId : Nat) :
    ExecutorState × List StatusUpdate × Option CallerOutcome :=
  match lookupWaiter s.waiters taskId with
  | none => (s, [], none)
  | some w =>
      let waiters1 := removeWaiter s.waiters taskId
      let db1 : DB :=
        match findExecution s.db w.executionId with
        | none => s.db
        | some _ =>
            { s.db with
              executions := s.db.executions.map fun e =>
                if e.id == w.executionId then
                  { e with status := "failed", completedAt := some now,
                           duration := some (now - e.startedAt),
                           error := some timeoutMsg }
                else e }
      match findTask db1 taskId with
      | none => ({ db := db1, waiters := waiters1 }, [], some (.rejected timeoutMsg))
      | some task =>
          let nextRun := calculateNextRunTime task.cronExpression (some now) now
          let db2 : DB :=
            { db1 with
              tasks := db1.tasks.map fun t =>
                if t.id == taskId then
                  { t with status := "failed", nextRunAt := some nextRun,
                           failureCount := t.failureCount + 1 }
                else t }
          ({ db := db2, waiters := waiters1 },
           [{ taskId := taskId, status := "failed", lastRunAt := task.lastRunAt,
              nextRunAt := some nextRun,
              failureCount := some (task.failureCount + 1) }],
           some (.rejected timeoutMsg))

/-- How the synchronous part of `executeTaskInClient` settles. -/
inductive DispatchOutcome where
  | noClients (msg : String)
  | pushFailed (msg : String)
  | waiting
  deriving Repr, DecidableEq

/-- `NoWorkerAvailableError`: rejection message when zero clients are
connected at push time. -/
def noClientsMsg : String := "没有可用的客户端连接，请确保自动化任务窗口已启动"

/-- Rejection message when the broadcast reached zero clients. -/
def pushFailedMsg : String := "任务推送失败，没有可用的客户端连接"

/-- The synchronous body of `executeTaskInClient(taskId, …, executionId)`:
with zero connected clients, reject at once — before any waiter is
registered or any timeout timer is created; otherwise register the waiter
with its 30-minute timer, push over the channel, and if the send reached
zero clients clear the timer and waiter and reject.  Returns the waiter map
after the call, the delay of the timeout timer left pending (`none` when no
timer remains armed), and the outcome. -/
def executeTaskInClient (waiters : List (Nat × Waiter))
    (clientCount sentCount : Nat) (taskId executionId : Nat) :
    List (Nat × Waiter) × Option Nat × DispatchOutcome :=
  if clientCount == 0 then
    (waiters, none, .noClients noClientsMsg)
  else
    let waiters1 := setWaiter waiters taskId ⟨executionId⟩
    if sentCount == 0 then
      (removeWaiter waiters1 taskId, none, .pushFailed pushFailedMsg)
    else
      (waiters1, some taskTimeoutMs, .waiting)

/-! ## Scheduler (`taskScheduler.js`) -/

/-- The scheduler's in-memory `jobs` map: task id to the cron expression the
installed recurring timer was created from (the timer object itself is the
expression plus the trigger callback; only the expression is observable
state). -/
structure SchedulerState where
  jobs : List (Nat × String)
  deriving Repr, DecidableEq

/-- Lookup in the scheduler's `jobs` map. -/
def lookupJob (js : List (Nat × String)) (k : Nat) : Option String :=
  (js.find? (fun p => p.1 == k)).map (fun p => p.2)

/-- `this.jobs.delete(taskId)` after `job.destroy()`. -/
def removeJob (js : List (Nat × String)) (k : Nat) : List (Nat × String) :=
  js.filter (fun p => p.1 != k)

/-- `this.jobs.set(taskId, job)`. -/
def setJob (js : List (Nat × String)) (k : Nat) (v : String) :
    List (Nat × String) :=
  removeJob js k ++ [(k, v)]

/-- The error reported for a malformed cron expression
(`InvalidScheduleError` in the spec's taxonomy; the source logs and
returns). -/
def invalidCronMsg (expr : String) : String :=
  "无效的 cron 表达式: " ++ expr

/-- `scheduleTask(task)`: destroy any existing timer for the id, validate
the cron expression — on failure log `InvalidScheduleError` and return
without installing anything; on success install the recurring timer and
compute + persist `nextRunAt` (via `updateNextRunTime`, which passes
`fromDate = null`, i.e. from now).  Returns the new timer map, the new
store, and `.error` exactly when validation failed. -/
def scheduleTask (st : SchedulerState) (db : DB) (task : Task) (now : Nat) :
    SchedulerState × DB × Except String Unit :=
  let st1 : SchedulerState := { jobs := removeJob st.jobs task.id }
  if cronValidate task.cronExpression then
    let st2 : SchedulerState := { jobs := setJob st1.jobs task.id task.cronExpression }
    let nextRun := calculateNextRunTime task.cronExpression none now
    let db1 : DB :=
      { db with
        tasks := db.tasks.map fun t =>
          if t.id == task.id then { t with nextRunAt := some nextRun } else t }
    (st2, db1, .ok ())
  else
    (st1, db, .error (invalidCronMsg task.cronExpression))

/-! ## Worker channel (`WebSocketService`) -/

/-- The worker channel's state: its set of open, accepted connections,
modelled by their client ids. -/
structure WSState where
  clients : List Nat
  deriving Repr, DecidableEq

/-- How a connection attempt ends. -/
inductive ConnOutcome where
  | closed (closeCode : Nat) (reason : String)
  | accepted
  deriving Repr, DecidableEq

/-- Modelled from the spec: `verifyToken` (imported by the WebSocket service
from the auth middleware but absent from the sources) verifies the
handshake's credential token, throwing on an invalid one — modelled as a
boolean validity predicate supplied as a parameter. -/
def tokenValid (valid : String → Bool) (t : String) : Bool := valid t

/-- The `connection` handler of `WebSocketService.start`: a connection with
no token is closed as `4401 Unauthorized`, one whose token fails
verification as `4401 Invalid token` — both before `this.clients.add(ws)`;
only a verified connection is added to the active set. -/
def handleConnection (st : WSState) (valid : String → Bool)
    (token : Option String) (cid : Nat) : WSState × ConnOutcome :=
  match token with
  | none => (st, .closed 4401 "Unauthorized")
  | some t =>
      if tokenValid valid t then
        ({ clients := st.clients ++ [cid] }, .accepted)
      else
        (st, .closed 4401 "Invalid token")

/-! ## Admission queue (`p-queue` as configured in `taskExecutor.js`)

The queue is constructed with `concurrency: 3`, `interval: 1000`,
`intervalCap: 5`: at most 3 tasks run at once, and at most 5 may start
within any one interval window.  The model below is the admission
discipline of that configuration: a pending counter, a running counter, and
the count of starts in the current interval window; a task starts only
while both the concurrency ceiling and the interval cap permit. -/

/-- `concurrency: 3`. -/
def queueConcurrency : Nat := 3

/-- `intervalCap: 5`. -/
def queueIntervalCap : Nat := 5

/-- `interval: 1000` (ms). -/
def queueIntervalMs : Nat := 1000

/-- The admission queue's observable state. -/
structure QueueState where
  running : Nat
  pending : Nat
  intervalCount : Nat
  deriving Repr, DecidableEq

/-- Start as many pending tasks as the concurrency ceiling and the interval
cap allow (at most `n` of them). -/
def tryStartN : Nat → QueueState → QueueState
  | 0, s => s
  | n + 1, s =>
      if 0 < s.pending && s.running < queueConcurrency &&
          s.intervalCount < queueIntervalCap then
        tryStartN n { running := s.running + 1, pending := s.pending - 1,
                      intervalCount := s.intervalCount + 1 }
      else s

/-- Drain the pending queue as far as the limits allow. -/
def tryStart (s : QueueState) : QueueState :=
  tryStartN s.pending s

/-- Events observed by the queue: `queue.add` of one job, completion of one
running job, and the interval-window boundary resetting the rate counter. -/
inductive QueueEvent where
  | add
  | complete
  | tick
  deriving Repr, DecidableEq

/-- One step of the admission queue. -/
def queueStep (ev : QueueEvent) (s : QueueState) : QueueState :=
  match ev with
  | .add => tryStart { s with pending := s.pending + 1 }
  | .complete => tryStart { s with running := s.running - 1 }
  | .tick => tryStart { s with intervalCount := 0 }

/-- Run the queue over a sequence of events. -/
def queueRun (evs : List QueueEvent) (s : QueueState) : QueueState :=
  evs.foldl (fun st ev => queueStep ev st) s

/-! ## Concrete states used by the witnesses and counterexamples -/

/-- A job whose first run is in progress: its `scheduled_tasks` document has
`status: 'running'` and a running execution exists for it. -/
def taskA : Task :=
  { id := 1, shopId := 5, taskType := "auto_flow", status := "running",
    cronExpression := "*/5 * * * *", lastRunAt := some 50, runCount := 1 }

/-- The store while `taskA`'s first run is in flight. -/
def dbRunningA : DB :=
  { tasks := [taskA],
    executions := [{ id := 10, taskId := 1, shopId := 5, status := "running",
                     startedAt := 50 }] }

/-- A second job with the same shop and task type as `taskA` (a store state
in which the uniqueness constraint is not in force). -/
def taskB : Task :=
  { id := 2, shopId := 5, taskType := "auto_flow", status := "pending",
    cronExpression := "*/5 * * * *" }

/-- The store holding both `taskA` (running) and `taskB`. -/
def dbAandB : DB :=
  { tasks := [taskA, taskB], executions := dbRunningA.executions }

/-- The parsed form of the every-minute expression. -/
def cronStar : CronSpec :=
  { minutes := List.range' 0 60, hours := List.range' 0 24,
    doms := List.range' 1 31, months := List.range' 1 12,
    dows := [0, 1, 2, 3, 4, 5, 6, 0], domStar := true, dowStar := true }

/-- A running execution used to exercise the reconciliation paths. -/
def wexec : Execution :=
  { id := 10, taskId := 1, shopId := 5, status := "running", startedAt := 30 }

/-- The task owning `wexec`. -/
def wtask : Task :=
  { id := 1, shopId := 5, taskType := "auto_flow", status := "running",
    cronExpression := "* * * * *", lastRunAt := some 30, runCount := 1 }

/-- Executor state with `wtask` dispatched and its waiter registered. -/
def wstate : ExecutorState :=
  { db := { tasks := [wtask], executions := [wexec] },
    waiters := [(1, ⟨10⟩)] }

/-- A job with a well-formed cron expression. -/
def goodTask : Task :=
  { id := 3, shopId := 6, taskType := "login", status := "pending",
    cronExpression := "*/5 * * * *" }

/-- A job with a malformed cron expression. -/
def badTask : Task :=
  { id := 4, shopId := 6, taskType := "login", status := "pending",
    cronExpression := "bad cron" }

/-- The token validity predicate used by the handshake witness. -/
def validW : String → Bool := fun s => s == "good-token"

/-! ## Helper lemmas -/

/-- Filtering a key out of an association list makes its `find?` miss. -/
theorem find?_filter_ne_self {α : Type} (l : List (Nat × α)) (k : Nat) :
    (l.filter fun p => p.1 != k).find? (fun p => p.1 == k) = none := by
  induction l with
  | nil => rfl
  | cons p l ih =>
      by_cases h : p.1 = k
      · simp only [List.filter_cons, h, bne_self_eq_false, Bool.false_eq_true,
          if_false]
        exact ih
      · have hb : (p.1 != k) = true := by simp [h]
        simp only [List.filter_cons, hb, if_true]
        have h2 : List.find? (fun q => q.1 == k)
            (p :: l.filter fun q => q.1 != k)
              = List.find? (fun q => q.1 == k) (l.filter fun q => q.1 != k) :=
          List.find?_cons_of_neg _ (by simp [h])
        rw [h2]
        exact ih

/-- Replacing a key's binding (filter then append) makes its `find?` hit the
new binding. -/
theorem find?_set_self {α : Type} (l : List (Nat × α)) (k : Nat) (v : α) :
    ((l.filter fun p => p.1 != k) ++ [(k, v)]).find? (fun p => p.1 == k)
      = some (k, v) := by
  induction l with
  | nil => simp [List.find?]
  | cons p l ih =>
      by_cases h : p.1 = k
      · simp only [List.filter_cons, h, bne_self_eq_false, Bool.false_eq_true,
          if_false]
        exact ih
      · have hb : (p.1 != k) = true := by simp [h]
        simp only [List.filter_cons, hb, if_true, List.cons_append]
        have h2 : List.find? (fun q => q.1 == k)
            (p :: ((l.filter fun q => q.1 != k) ++ [(k, v)]))
              = List.find? (fun q => q.1 == k)
                  ((l.filter fun q => q.1 != k) ++ [(k, v)]) :=
          List.find?_cons_of_neg _ (by simp [h])
        rw [h2]
        exact ih

/-- Deleting a key from the waiter map makes its lookup miss. -/
theorem lookupWaiter_removeWaiter_self (ws : List (Nat × Waiter)) (k : Nat) :
    lookupWaiter (removeWaiter ws k) k = none := by
  unfold lookupWaiter removeWaiter
  rw [find?_filter_ne_self]
  rfl

/-- Deleting a task id from the scheduler's timer map makes its lookup
miss. -/
theorem lookupJob_removeJob_self (js : List (Nat × String)) (k : Nat) :
    lookupJob (removeJob js k) k = none := by
  unfold lookupJob removeJob
  rw [find?_filter_ne_self]
  rfl

/-- Installing a timer for a task id makes its lookup return it. -/
theorem lookupJob_setJob_self (js : List (Nat × String)) (k : Nat) (v : String) :
    lookupJob (setJob js k v) k = some v := by
  unfold lookupJob setJob removeJob
  rw [find?_set_self]
  rfl

/-- The fueled scan never returns a time before its starting point. -/
theorem nextFireAux_ge (c : CronSpec) (fuel s t : Nat)
    (h : nextFireAux c fuel s = some t) : s ≤ t := by
  induction fuel generalizing s with
  | zero => simp [nextFireAux] at h
  | succ n ih =>
      unfold nextFireAux at h
      by_cases hm : cronMatches c s
      · simp [hm] at h; omega
      · simp [hm] at h
        have := ih (s + 1) h
        omega

/-- `nextFire` is strictly after the supplied time. -/
theorem nextFire_gt (c : CronSpec) (fromTime t : Nat)
    (h : nextFire c fromTime = some t) : fromTime < t := by
  have := nextFireAux_ge c cronSearchFuel (fromTime + 1) t h
  omega

/-- Mapping an id-preserving per-element update across the executions list
commutes with `find?` on that id. -/
theorem find?_map_update_exec (l : List Execution) (eid : Nat)
    (f : Execution → Execution) (hf : ∀ e, (f e).id = e.id) :
    (l.map fun e => if e.id == eid then f e else e).find? (fun e => e.id == eid)
      = (l.find? (fun e => e.id == eid)).map f := by
  induction l with
  | nil => rfl
  | cons a l ih =>
      simp only [List.map_cons]
      by_cases h : a.id = eid
      · have hc : (a.id == eid) = true := by simp [h]
        rw [hc]
        simp only [if_true]
        have hL : List.find? (fun e => e.id == eid)
            (f a :: l.map fun e => if e.id == eid then f e else e)
              = some (f a) :=
          List.find?_cons_of_pos _ (by simp [hf a, h])
        have hR : List.find? (fun e => e.id == eid) (a :: l) = some a :=
          List.find?_cons_of_pos _ (by simp [h])
        rw [hL, hR]
        rfl
      · have hc : (a.id == eid) = false := by simp [h]
        rw [hc]
        simp only [Bool.false_eq_true, if_false]
        have hL : List.find? (fun e => e.id == eid)
            (a :: l.map fun e => if e.id == eid then f e else e)
              = List.find? (fun e => e.id == eid)
                  (l.map fun e => if e.id == eid then f e else e) :=
          List.find?_cons_of_neg _ (by simp [h])
        have hR : List.find? (fun e => e.id == eid) (a :: l)
            = List.find? (fun e => e.id == eid) l :=
          List.find?_cons_of_neg _ (by simp [h])
        rw [hL, hR]
        exact ih

/-- Same commutation for the tasks list. -/
theorem find?_map_update_task (l : List Task) (tid : Nat)
    (f : Task → Task) (hf : ∀ t, (f t).id = t.id) :
    (l.map fun t => if t.id == tid then f t else t).find? (fun t => t.id == tid)
      = (l.find? (fun t => t.id == tid)).map f := by
  induction l with
  | nil => rfl
  | cons a l ih =>
      simp only [List.map_cons]
      by_cases h : a.id = tid
      · have hc : (a.id == tid) = true := by simp [h]
        rw [hc]
        simp only [if_true]
        have hL : List.find? (fun t => t.id == tid)
            (f a :: l.map fun t => if t.id == tid then f t else t)
              = some (f a) :=
          List.find?_cons_of_pos _ (by simp [hf a, h])
        have hR : List.find? (fun t => t.id == tid) (a :: l) = some a :=
          List.find?_cons_of_pos _ (by simp [h])
        rw [hL, hR]
        rfl
      · have hc : (a.id == tid) = false := by simp [h]
        rw [hc]
        simp only [Bool.false_eq_true, if_false]
        have hL : List.find? (fun t => t.id == tid)
            (a :: l.map fun t => if t.id == tid then f t else t)
              = List.find? (fun t => t.id == tid)
                  (l.map fun t => if t.id == tid then f t else t) :=
          List.find?_cons_of_neg _ (by simp [h])
        have hR : List.find? (fun t => t.id == tid) (a :: l)
            = List.find? (fun t => t.id == tid) l :=
          List.find?_cons_of_neg _ (by simp [h])
        rw [hL, hR]
        exact ih

/-! ## Claim theorems -/

/-- C9: if the store lookup inside the mutual-exclusion check throws, the
check reports a conflict, so `executeTask` rejects the run with the
concurrent-execution error, creates no Execution record, changes nothing in
the store, and broadcasts nothing. -/
theorem execute_fails_closed_on_store_error (db : DB) (task : Task)
    (executionId now : Nat) :
    executeTaskAdmit db true task executionId now
      = (db, [], .error concurrentMsg) := by
  simp [executeTaskAdmit, checkRunningTask]

/-- C4: with zero connected clients at push time, the dispatch-and-wait
step rejects at once with `NoWorkerAvailableError`: the waiter map is
unchanged (no PendingCorrelation registered), no timeout timer is left
pending, and the caller's promise is rejected without waiting. -/
theorem dispatch_zero_clients_fails_fast (ws : List (Nat × Waiter))
    (sentCount taskId executionId : Nat) :
    executeTaskInClient ws 0 sentCount taskId executionId
      = (ws, none, .noClients noClientsMsg) := by
  simp [executeTaskInClient]

/-- C1 counterexample: while `taskA`'s own Execution (same `shopId`, same
`taskType`) is still `running`, invoking `execute` for the same job again is
ADMITTED — `checkRunningTask` excludes the job's own id — and a second
Execution record is created, contradicting the claimed
`ConcurrentExecutionError` rejection. -/
theorem concurrent_rejection_counterexample :
    (dbRunningA.executions.any fun e =>
        e.shopId == taskA.shopId && e.status == "running") = true ∧
    (dbRunningA.tasks.any fun t =>
        t.shopId == taskA.shopId && t.taskType == taskA.taskType &&
          t.status == "running") = true ∧
    (executeTaskAdmit dbRunningA false taskA 11 60).2.2 = .ok 11 ∧
    (executeTaskAdmit dbRunningA false taskA 11 60).1.executions.length
      = dbRunningA.executions.length + 1 := by
  decide

/-- C1 (amended): invoking `execute` while a DIFFERENT job (another task id)
with the same (`shopId`, `taskType`) has status `running` is rejected with
the concurrent-execution error, and no Execution record is created (the
store and broadcasts are untouched); the check excludes the job's own id,
so re-invoking the same job while it runs is admitted (see the
counterexample). -/
theorem concurrent_rejection_amended (db : DB) (task t : Task)
    (executionId now : Nat) (ht : t ∈ db.tasks) (hs : t.shopId = task.shopId)
    (hty : t.taskType = task.taskType) (hr : t.status = "running")
    (hne : t.id ≠ task.id) :
    executeTaskAdmit db false task executionId now
      = (db, [], .error concurrentMsg) := by
  have hc : checkRunningTask db false task.shopId task.taskType (some task.id)
      = true := by
    simp only [checkRunningTask, if_false, Bool.false_eq_true, List.any_eq_true]
    exact ⟨t, ht, by simp [hs, hty, hr, hne]⟩
  simp [executeTaskAdmit, hc]

/-- C1 witness: with `taskA` running, admitting `taskB` (same shop and type,
different id) is rejected and creates nothing. -/
theorem concurrent_rejection_amended_witness :
    taskA ∈ dbAandB.tasks ∧
    executeTaskAdmit dbAandB false taskB 12 70
      = (dbAandB, [], .error concurrentMsg) :=
  ⟨by decide,
   concurrent_rejection_amended dbAandB taskB taskA 12 70 (by decide)
     (by decide) (by decide) (by decide) (by decide)⟩

/-- C2 counterexample: on parser failure `calculateNextRunTime` returns the
CURRENT time plus one hour (`Date.now() + 60*60*1000`), not `fromTime` plus
one hour as claimed: with `fromTime = 0` and the current time `1000` it
returns `1060`, not `60`. -/
theorem computeNextRun_fallback_counterexample :
    parseCron "not-a-cron" = none ∧
    calculateNextRunTime "not-a-cron" (some 0) 1000 = 1060 ∧
    (1060 : Nat) ≠ 0 + 60 := by
  refine ⟨by decide, by decide, by decide⟩

/-- C2 (amended): `calculateNextRunTime` is a pure (hence deterministic)
function; for every cron expression the parser accepts whose iteration
finds a fire time, it returns that next fire time, strictly after
`fromTime`, in the configured timezone; on parser failure it returns the
CURRENT time plus one hour as a conservative fallback instead of throwing
to the caller. -/
theorem computeNextRun_amended (expr : String) (fromTime now : Nat) :
    (∀ c t, parseCron expr = some c → nextFire c fromTime = some t →
      calculateNextRunTime expr (some fromTime) now = t ∧ fromTime < t) ∧
    (parseCron expr = none →
      calculateNextRunTime expr (some fromTime) now = now + 60) := by
  constructor
  · intro c t hp hf
    refine ⟨?_, nextFire_gt c fromTime t hf⟩
    simp [calculateNextRunTime, hp, hf]
  · intro hp
    simp [calculateNextRunTime, hp]

/-- C2 witness: for the every-minute expression from time `0`, the next run
is minute `1`, strictly after `0`. -/
theorem computeNextRun_amended_witness :
    parseCron "* * * * *" = some cronStar ∧
    calculateNextRunTime "* * * * *" (some 0) 500 = 1 ∧ 0 < 1 := by
  refine ⟨by decide, ?_⟩
  have h := (computeNextRun_amended "* * * * *" 0 500).1 cronStar 1
    (by decide) (by decide)
  exact ⟨h.1, h.2⟩

/-- C10: an inbound `task:result` whose `taskId` has no entry in the waiter
map is a complete no-op — the state (store and waiter map) is unchanged, no
status broadcast is sent and no caller is settled. -/
theorem unsolicited_result_noop (s : ExecutorState) (now taskId : Nat)
    (r : ResultMsg) (h : lookupWaiter s.waiters taskId = none) :
    taskResultCallback s now taskId r = (s, [], none) := by
  simp [taskResultCallback, h]

/-- C10 witness: a result for task `1` against an empty waiter map is a
no-op. -/
theorem unsolicited_result_noop_witness :
    lookupWaiter ([] : List (Nat × Waiter)) 1 = none ∧
    taskResultCallback ⟨⟨[], []⟩, []⟩ 100 1 ⟨200, none⟩
      = (⟨⟨[], []⟩, []⟩, [], none) :=
  ⟨by decide, unsolicited_result_noop ⟨⟨[], []⟩, []⟩ 100 1 ⟨200, none⟩ (by decide)⟩

/-- C3: when the deadline fires for a job whose waiter is still registered,
its PendingCorrelation is removed from the waiter map, its Execution is
marked `failed` with the timeout error, the caller is rejected with the
timeout error — and this happens exactly once: a second deadline firing and
a late correlated result are both complete no-ops on the resulting state. -/
theorem timeout_marks_failed_exactly_once (s : ExecutorState)
    (now now2 now3 taskId : Nat) (w : Waiter) (e : Execution) (r : ResultMsg)
    (hw : lookupWaiter s.waiters taskId = some w)
    (he : findExecution s.db w.executionId = some e) :
    taskTimeoutMs = 30 * 60 * 1000 ∧
    lookupWaiter (timeoutFire s now taskId).1.waiters taskId = none ∧
    findExecution (timeoutFire s now taskId).1.db w.executionId
      = some { e with status := "failed", completedAt := some now,
                      duration := some (now - e.startedAt),
                      error := some timeoutMsg } ∧
    (timeoutFire s now taskId).2.2 = some (.rejected timeoutMsg) ∧
    timeoutFire (timeoutFire s now taskId).1 now2 taskId
      = ((timeoutFire s now taskId).1, [], none) ∧
    taskResultCallback (timeoutFire s now taskId).1 now3 taskId r
      = ((timeoutFire s now taskId).1, [], none) := by
  have hnone : lookupWaiter (removeWaiter s.waiters taskId) taskId = none :=
    lookupWaiter_removeWaiter_self s.waiters taskId
  have hwaiters : (timeoutFire s now taskId).1.waiters
      = removeWaiter s.waiters taskId := by
    simp only [timeoutFire, hw, he]
    split <;> rfl
  have hexecs : (timeoutFire s now taskId).1.db.executions
      = s.db.executions.map (fun e2 =>
          if e2.id == w.executionId then
            { e2 with status := "failed", completedAt := some now,
                      duration := some (now - e2.startedAt),
                      error := some timeoutMsg }
          else e2) := by
    simp only [timeoutFire, hw, he]
    split <;> rfl
  have hout : (timeoutFire s now taskId).2.2 = some (.rejected timeoutMsg) := by
    simp only [timeoutFire, hw, he]
    split <;> rfl
  have hmiss : lookupWaiter (timeoutFire s now taskId).1.waiters taskId = none := by
    rw [hwaiters]; exact hnone
  refine ⟨rfl, hmiss, ?_, hout, ?_, ?_⟩
  · unfold findExecution
    rw [hexecs]
    have hcomm := find?_map_update_exec s.db.executions w.executionId
      (fun e2 =>
        { e2 with
          status := "failed"
          completedAt := some now
          duration := some (now - e2.startedAt)
          error := some timeoutMsg })
      (fun _ => rfl)
    rw [hcomm]
    unfold findExecution at he
    rw [he]
    rfl
  · revert hmiss
    generalize (timeoutFire s now taskId).1 = s1
    intro hm1
    simp [timeoutFire, hm1]
  · revert hmiss
    generalize (timeoutFire s now taskId).1 = s1
    intro hm1
    simp [taskResultCallback, hm1]

/-- C5: a `task:result` with `code = 200` for a job with a registered
waiter resolves the caller with the result payload, marks the Execution
`completed` with `completedAt` and `duration`, increments the job's
`successCount` by exactly one with `failureCount` unchanged, recomputes and
persists `nextRunAt`, clears the waiter, and broadcasts a
`task:status-update` carrying the updated counters and `nextRunAt`; any
code other than 200 takes the failure branch instead: the caller is
rejected, the Execution is marked `failed`, and `failureCount` is
incremented with `successCount` unchanged. -/
theorem result_reconciliation (s : ExecutorState) (now taskId : Nat)
    (w : Waiter) (e : Execution) (task : Task) (r : ResultMsg)
    (hw : lookupWaiter s.waiters taskId = some w)
    (he : findExecution s.db w.executionId = some e)
    (ht : findTask s.db taskId = some task) :
    (r.code = 200 →
      (taskResultCallback s now taskId r).2.2 = some (.resolved r) ∧
      findExecution (taskResultCallback s now taskId r).1.db w.executionId
        = some { e with status := "completed", completedAt := some now,
                        duration := some (now - e.startedAt), error := none } ∧
      findTask (taskResultCallback s now taskId r).1.db taskId
        = some { task with
                  status := "completed"
                  nextRunAt := some (calculateNextRunTime task.cronExpression
                    (some now) now)
                  successCount := task.successCount + 1 } ∧
      (taskResultCallback s now taskId r).2.1
        = [{ taskId := taskId, status := "completed",
             lastRunAt := task.lastRunAt,
             nextRunAt := some (calculateNextRunTime task.cronExpression
               (some now) now),
             successCount := some (task.successCount + 1),
             failureCount := some task.failureCount }] ∧
      lookupWaiter (taskResultCallback s now taskId r).1.waiters taskId
        = none) ∧
    (r.code ≠ 200 →
      (taskResultCallback s now taskId r).2.2
        = some (.rejected (r.message.getD genericFailMsg)) ∧
      findExecution (taskResultCallback s now taskId r).1.db w.executionId
        = some { e with status := "failed", completedAt := some now,
                        duration := some (now - e.startedAt),
                        error := some (r.message.getD genericFailMsg) } ∧
      findTask (taskResultCallback s now taskId r).1.db taskId
        = some { task with
                  status := "failed"
                  nextRunAt := some (calculateNextRunTime task.cronExpression
                    (some now) now)
                  failureCount := task.failureCount + 1 } ∧
      (taskResultCallback s now taskId r).2.1
        = [{ taskId := taskId, status := "failed",
             lastRunAt := task.lastRunAt,
             nextRunAt := some (calculateNextRunTime task.cronExpression
               (some now) now),
             successCount := some task.successCount,
             failureCount := some (task.failureCount + 1) }]) := by
  have ht' : List.find? (fun t => t.id == taskId) s.db.tasks = some task := ht
  have he' : List.find? (fun e2 => e2.id == w.executionId) s.db.executions
      = some e := he
  constructor
  · intro h200
    have hbeq : (r.code == 200) = true := by simp [h200]
    refine ⟨?_, ?_, ?_, ?_, ?_⟩
    · simp only [taskResultCallback, hw, he, findTask, ht', callerOutcome, hbeq]
      rfl
    · simp only [taskResultCallback, hw, he, findTask, ht', hbeq]
      simp only [findExecution, Bool.true_eq_false, bne_iff_ne, ne_eq, h200,
        not_true_eq_false, if_false, if_true]
      have hcomm := find?_map_update_exec s.db.executions w.executionId
        (fun e2 =>
          { e2 with
            status := "completed"
            completedAt := some now
            duration := some (now - e2.startedAt)
            error := none })
        (fun _ => rfl)
      rw [hcomm, he']
      rfl
    · simp only [taskResultCallback, hw, he, findTask, ht', hbeq]
      simp only [Bool.true_eq_false, bne_iff_ne, ne_eq, h200, not_true_eq_false,
        if_false, if_true]
      have hcomm := find?_map_update_task s.db.tasks taskId
        (fun t =>
          { t with
            status := "completed"
            nextRunAt := some (calculateNextRunTime task.cronExpression
              (some now) now)
            successCount := t.successCount + 1 })
        (fun _ => rfl)
      rw [hcomm, ht']
      rfl
    · simp only [taskResultCallback, hw, he, findTask, ht', hbeq]
      simp [h200]
    · simp only [taskResultCallback, hw, he, findTask, ht', hbeq]
      exact lookupWaiter_removeWaiter_self s.waiters taskId
  · intro hne
    have hbeq : (r.code == 200) = false := by simp [hne]
    refine ⟨?_, ?_, ?_, ?_⟩
    · simp only [taskResultCallback, hw, he, findTask, ht', callerOutcome, hbeq]
      rfl
    · simp only [taskResultCallback, hw, he, findTask, ht', hbeq]
      simp only [findExecution, Bool.false_eq_true, bne_iff_ne, ne_eq, hne,
        not_false_eq_true, if_false, if_true]
      have hcomm := find?_map_update_exec s.db.executions w.executionId
        (fun e2 =>
          { e2 with
            status := "failed"
            completedAt := some now
            duration := some (now - e2.startedAt)
            error := some (r.message.getD genericFailMsg) })
        (fun _ => rfl)
      rw [hcomm, he']
      rfl
    · simp only [taskResultCallback, hw, he, findTask, ht', hbeq]
      simp only [Bool.false_eq_true, bne_iff_ne, ne_eq, hne, not_false_eq_true,
        if_false, if_true]
      have hcomm := find?_map_update_task s.db.tasks taskId
        (fun t =>
          { t with
            status := "failed"
            nextRunAt := some (calculateNextRunTime task.cronExpression
              (some now) now)
            failureCount := t.failureCount + 1 })
        (fun _ => rfl)
      rw [hcomm, ht']
      rfl
    · simp only [taskResultCallback, hw, he, findTask, ht', hbeq]
      simp [hne]

/-- C3 witness: firing the deadline on the concrete in-flight state marks
execution `10` failed with the timeout error, and a late result afterwards
is a no-op. -/
theorem timeout_marks_failed_exactly_once_witness :
    lookupWaiter wstate.waiters 1 = some ⟨10⟩ ∧
    findExecution wstate.db 10 = some wexec ∧
    findExecution (timeoutFire wstate 40 1).1.db 10
      = some { wexec with status := "failed", completedAt := some 40,
                          duration := some 10, error := some timeoutMsg } ∧
    taskResultCallback (timeoutFire wstate 40 1).1 45 1 ⟨200, none⟩
      = ((timeoutFire wstate 40 1).1, [], none) :=
  have h := timeout_marks_failed_exactly_once wstate 40 41 45 1 ⟨10⟩ wexec
    ⟨200, none⟩ (by decide) (by decide)
  ⟨by decide, by decide, h.2.2.1, h.2.2.2.2.2⟩

/-- C5 witness: a `code = 200` result on the concrete in-flight state
resolves the caller and increments `successCount` from 0 to 1 with the
recomputed `nextRunAt` persisted. -/
theorem result_reconciliation_witness :
    lookupWaiter wstate.waiters 1 = some ⟨10⟩ ∧
    findTask wstate.db 1 = some wtask ∧
    (taskResultCallback wstate 40 1 ⟨200, none⟩).2.2
      = some (.resolved ⟨200, none⟩) ∧
    findTask (taskResultCallback wstate 40 1 ⟨200, none⟩).1.db 1
      = some { wtask with status := "completed", nextRunAt := some 41,
                          successCount := 1 } :=
  have h := (result_reconciliation wstate 40 1 ⟨10⟩ wexec wtask ⟨200, none⟩
    (by decide) (by decide) (by decide)).1 rfl
  ⟨by decide, by decide, h.1, h.2.2.1⟩

/-- C6: `scheduleTask` validates the cron expression; a malformed
expression fails with `InvalidScheduleError` (returned as an error value,
never an uncaught crash), with no timer installed for the job and the store
untouched; only on successful validation is a recurring timer installed
under the job id (replacing any prior timer for that id) and `nextRunAt`
computed and persisted. -/
theorem schedule_validates_cron (st : SchedulerState) (db : DB) (task : Task)
    (now : Nat) :
    (cronValidate task.cronExpression = false →
      scheduleTask st db task now
        = ({ jobs := removeJob st.jobs task.id }, db,
           .error (invalidCronMsg task.cronExpression)) ∧
      lookupJob (scheduleTask st db task now).1.jobs task.id = none) ∧
    (cronValidate task.cronExpression = true →
      lookupJob (scheduleTask st db task now).1.jobs task.id
        = some task.cronExpression ∧
      (scheduleTask st db task now).2.2 = .ok () ∧
      findTask (scheduleTask st db task now).2.1 task.id
        = (findTask db task.id).map (fun t =>
            { t with nextRunAt := some (calculateNextRunTime
                task.cronExpression none now) })) := by
  constructor
  · intro hv
    constructor
    · simp [scheduleTask, hv]
    · simp [scheduleTask, hv, lookupJob_removeJob_self]
  · intro hv
    refine ⟨?_, ?_, ?_⟩
    · simp only [scheduleTask, hv, if_true]
      exact lookupJob_setJob_self _ _ _
    · simp [scheduleTask, hv]
    · simp only [scheduleTask, hv, if_true]
      unfold findTask
      have hcomm := find?_map_update_task db.tasks task.id
        (fun t =>
          { t with nextRunAt := some (calculateNextRunTime
              task.cronExpression none now) })
        (fun _ => rfl)
      rw [hcomm]

/-- C6 witness: the malformed expression is rejected installing no timer;
the well-formed one installs its timer. -/
theorem schedule_validates_cron_witness :
    cronValidate badTask.cronExpression = false ∧
    lookupJob (scheduleTask ⟨[]⟩ ⟨[badTask], []⟩ badTask 0).1.jobs 4 = none ∧
    cronValidate goodTask.cronExpression = true ∧
    lookupJob (scheduleTask ⟨[]⟩ ⟨[goodTask], []⟩ goodTask 0).1.jobs 3
      = some "*/5 * * * *" :=
  ⟨by decide,
   ((schedule_validates_cron ⟨[]⟩ ⟨[badTask], []⟩ badTask 0).1 (by decide)).2,
   by decide,
   ((schedule_validates_cron ⟨[]⟩ ⟨[goodTask], []⟩ goodTask 0).2 (by decide)).1⟩

/-- C7: every inbound worker connection must present a credential token:
with no token the connection is closed `4401 "Unauthorized"`, with an
invalid token `4401 "Invalid token"` — distinct close reasons — in both
cases before being added to the active client set (which is unchanged);
only a connection whose token verifies is ever added, so an accepted
connection always carried a valid token. -/
theorem handshake_requires_valid_token (st : WSState) (valid : String → Bool)
    (t : String) (cid : Nat) :
    (handleConnection st valid none cid = (st, .closed 4401 "Unauthorized")) ∧
    (valid t = false →
      handleConnection st valid (some t) cid
        = (st, .closed 4401 "Invalid token")) ∧
    (valid t = true →
      handleConnection st valid (some t) cid
        = ({ clients := st.clients ++ [cid] }, .accepted)) ∧
    (∀ tok, (handleConnection st valid tok cid).2 = .accepted →
      ∃ x, tok = some x ∧ valid x = true) ∧
    ("Unauthorized" : String) ≠ "Invalid token" := by
  refine ⟨rfl, ?_, ?_, ?_, by decide⟩
  · intro hv
    simp [handleConnection, tokenValid, hv]
  · intro hv
    simp [handleConnection, tokenValid, hv]
  · intro tok hacc
    cases tok with
    | none => simp [handleConnection] at hacc
    | some x =>
        by_cases hv : valid x = true
        · exact ⟨x, rfl, hv⟩
        · have hv2 : valid x = false := by
            cases hVal : valid x
            · rfl
            · exact absurd hVal hv
          simp [handleConnection, tokenValid, hv2] at hacc

/-- C7 witness: a connection with a wrong token is refused with the
`Invalid token` reason and the client set stays empty; a connection with
the right token is accepted into the set. -/
theorem handshake_requires_valid_token_witness :
    validW "bad" = false ∧
    handleConnection ⟨[]⟩ validW (some "bad") 7
      = (⟨[]⟩, .closed 4401 "Invalid token") ∧
    validW "good-token" = true ∧
    handleConnection ⟨[]⟩ validW (some "good-token") 7 = (⟨[7]⟩, .accepted) :=
  ⟨by decide,
   (handshake_requires_valid_token ⟨[]⟩ validW "bad" 7).2.1 (by decide),
   by decide,
   (handshake_requires_valid_token ⟨[]⟩ validW "good-token" 7).2.2.1 (by decide)⟩

/-- Draining the pending queue never pushes `running` past the concurrency
ceiling. -/
theorem tryStartN_running_le (n : Nat) (s : QueueState)
    (h : s.running ≤ queueConcurrency) :
    (tryStartN n s).running ≤ queueConcurrency := by
  induction n generalizing s with
  | zero => exact h
  | succ n ih =>
      unfold tryStartN
      split
      · next hc =>
          apply ih
          simp only [Bool.and_eq_true, decide_eq_true_eq] at hc
          simp only [queueConcurrency] at hc ⊢
          omega
      · exact h

/-- Draining the pending queue never pushes the per-interval admission
count past the interval cap. -/
theorem tryStartN_intervalCount_le (n : Nat) (s : QueueState)
    (h : s.intervalCount ≤ queueIntervalCap) :
    (tryStartN n s).intervalCount ≤ queueIntervalCap := by
  induction n generalizing s with
  | zero => exact h
  | succ n ih =>
      unfold tryStartN
      split
      · next hc =>
          apply ih
          simp only [Bool.and_eq_true, decide_eq_true_eq] at hc
          simp only [queueIntervalCap] at hc ⊢
          omega
      · exact h

/-- C8: the admission queue is configured with concurrency ceiling 3,
interval cap 5 and interval 1000 ms; every queue step preserves
`running ≤ 3` and `admissions in the current interval ≤ 5`; and submitting
N+1 = 4 concurrently admissible jobs from the idle state leaves exactly 3
in flight with 1 waiting in the queue. -/
theorem queue_bounded_concurrency (s : QueueState) (ev : QueueEvent) :
    queueConcurrency = 3 ∧ queueIntervalCap = 5 ∧ queueIntervalMs = 1000 ∧
    (s.running ≤ queueConcurrency →
      (queueStep ev s).running ≤ queueConcurrency) ∧
    (s.intervalCount ≤ queueIntervalCap →
      (queueStep ev s).intervalCount ≤ queueIntervalCap) ∧
    queueRun [.add, .add, .add, .add] ⟨0, 0, 0⟩
      = { running := 3, pending := 1, intervalCount := 3 } := by
  refine ⟨rfl, rfl, rfl, ?_, ?_, by decide⟩
  · intro h
    cases ev with
    | add => exact tryStartN_running_le _ _ h
    | complete =>
        exact tryStartN_running_le _ _ (Nat.le_trans (Nat.sub_le _ _) h)
    | tick => exact tryStartN_running_le _ _ h
  · intro h
    cases ev with
    | add => exact tryStartN_intervalCount_le _ _ h
    | complete => exact tryStartN_intervalCount_le _ _ h
    | tick => exact tryStartN_intervalCount_le _ _ (Nat.zero_le _)

/-- C8 witness: a step from a full queue (3 running, 2 pending) keeps
`running` at the ceiling instead of exceeding it. -/
theorem queue_bounded_concurrency_witness :
    (⟨3, 2, 5⟩ : QueueState).running ≤ queueConcurrency ∧
    (queueStep .add ⟨3, 2, 5⟩).running ≤ queueConcurrency :=
  ⟨by decide, (queue_bounded_concurrency ⟨3, 2, 5⟩ .add).2.2.2.1 (by decide)⟩

end FortuneFlow
